import Mathlib

set_option linter.unusedSectionVars false

/-!
Verification of the factor-mapping and selection-synchronization engine of
the CTCoral CoDA repository (Python).  The Python modules are shallowly
embedded: pure computations become Lean functions over `Nat`/`Int`/`Rat`
and lists, stateful protocols become explicit state passing that also
records the externally visible calls (the "trace"), and fallible Python
code (raised exceptions) returns `Except`.

Embedded modules:
* `coda/utils.py`    — `FactorMap` (factors, palette assignment), column filters.
* `cora/utils.py`    — the earlier draft of `scalar_columns` (same branch bug).
* `coda/application.py` — `Application.reload`, the re-entrancy guard and the
  selection/colormap writebacks to the data provider.
* `cora/view/histogram.py` — `HistogramPlot.compute_histogram` and the three
  derived render series.
* `cora/view/graph.py` — the position normalization of `update_graph_layout`.
* `coda/view/umap.py` — `UMAPView.reload_df` / `compute_umap`.
-/

namespace CoDA

/-- A raised Python exception, by kind.  The embedded functions return
`Except PyErr _` wherever the Python code can raise. -/
inductive PyErr where
  | indexError
  | keyError
  | valueError
  | providerError
  deriving DecidableEq, Repr

/-! ## `coda/utils.py` — `FactorMap`

The factor map derives, from a designated dataframe column, the naturally
sorted list of distinct values (`factors`), a dense id per factor and a
glyph per factor taken from a palette, either cycling (`itertools.cycle`)
or clamping to the last entry (`itertools.chain(palette, repeat(palette[-1]))`).
-/

namespace FactorMap

/-- `FactorMap.Mode` from `coda/utils.py`: out-of-palette behaviour. -/
inductive Mode where
  | CYCLE
  | REPEAT_LAST
  deriving DecidableEq, Repr

variable {V G : Type} [LinearOrder V] [DecidableEq V]

/-- `np.unique(column)`: the distinct values of the column, sorted
ascending (numpy returns the sorted unique values). -/
def npUnique (xs : List V) : List V :=
  List.insertionSort (· ≤ ·) xs.dedup

/-- `np.unique` is determined by the set of values in the column: two
columns with equal value sets have equal sorted distinct-value lists. -/
theorem npUnique_eq_of_toFinset_eq {xs ys : List V}
    (h : xs.toFinset = ys.toFinset) : npUnique xs = npUnique ys := by
  have hperm : xs.dedup.Perm ys.dedup := by
    apply List.perm_of_nodup_nodup_toFinset_eq (List.nodup_dedup xs)
      (List.nodup_dedup ys)
    have h1 : xs.dedup.toFinset = xs.toFinset := by ext a; simp
    have h2 : ys.dedup.toFinset = ys.toFinset := by ext a; simp
    rw [h1, h2, h]
  exact List.eq_of_perm_of_sorted
    ((List.perm_insertionSort _ _).trans
      (hperm.trans (List.perm_insertionSort _ _).symm))
    (List.sorted_insertionSort _ _) (List.sorted_insertionSort _ _)

/-- Insert into a list sorted by the boolean relation `le`
(helper for `natsorted`). -/
def insertLe (le : V → V → Bool) (x : V) : List V → List V
  | [] => [x]
  | y :: ys => if le x y then x :: y :: ys else y :: insertLe le x ys

/-- `natsort.natsorted`: a deterministic (insertion) sort of the list under
the natural-order comparison `le`.  The natural ("human friendly") order is
a parameter; for strings a concrete digit-run-aware comparison is defined
further below (`natLeStr`). -/
def natsorted (le : V → V → Bool) : List V → List V
  | [] => []
  | x :: xs => insertLe le x (natsorted le xs)

/-- `zip(factors, itertools.cycle(palette))`: pair every factor with the
next palette entry, restarting from the full palette `orig` when the
current remainder `cur` is exhausted.  `itertools.cycle([])` is an empty
iterator, so an empty original palette ends the zip. -/
def zipCycle : List V → List G → List G → List (V × G)
  | [], _, _ => []
  | _ :: _, [], [] => []
  | f :: fs, [], g :: gs => (f, g) :: zipCycle fs gs (g :: gs)
  | f :: fs, g :: gs, orig => (f, g) :: zipCycle fs gs orig

/-- `zip(factors, itertools.chain(palette, itertools.repeat(last)))`:
pair every factor with the next palette entry, repeating `last`
(the Python code passes `palette[-1]`) once the palette is exhausted. -/
def zipRepeatLast : List V → List G → G → List (V × G)
  | [], _, _ => []
  | f :: fs, [], last => (f, last) :: zipRepeatLast fs [] last
  | f :: fs, g :: gs, last => (f, g) :: zipRepeatLast fs gs last

/-- The `factors` computed by `FactorMap.update_df` when the column is
present: `natsorted(np.unique(df[column_name]))`. -/
def fmapFactors (le : V → V → Bool) (col : List V) : List V :=
  natsorted le (npUnique col)

/-- The factor-to-glyph and factor-to-id association lists built by
`FactorMap.update_df` (column-present branch):
`glyph_map = {factor: glyph for factor, glyph in zip(factors, palette_cycle)}`
and `id_map = {factor: i for i, factor in enumerate(factors)}`.
In `REPEAT_LAST` mode the Python code evaluates `self.palette[-1]` eagerly,
which raises `IndexError` on an empty palette. -/
def fmapAssignment (le : V → V → Bool) (mode : Mode) (palette : List G)
    (col : List V) : Except PyErr (List (V × G) × List (V × ℕ)) :=
  let factors := fmapFactors le col
  let idPairs := factors.enum.map (fun p => (p.2, p.1))
  match mode with
  | .CYCLE => .ok (zipCycle factors palette palette, idPairs)
  | .REPEAT_LAST =>
    match palette.getLast? with
    | none => .error .indexError
    | some last => .ok (zipRepeatLast factors palette last, idPairs)

/-- Result record of `FactorMap.update_df` (column-present branch). -/
structure UpdateResult (V G : Type) where
  factors : List V
  glyphMap : List (V × G)
  idMap : List (V × ℕ)
  glyphColumn : List G
  idColumn : List ℕ
  deriving DecidableEq

/-- `FactorMap.update_df`, column-present branch of `coda/utils.py`:
computes the sorted factors, the glyph/id maps and the per-row glyph and id
columns (`[self.glyph_map[factor] for factor in self.df[self.column_name]]`).
A dictionary lookup that misses raises `KeyError` (possible when the palette
is empty in `CYCLE` mode, which leaves `glyph_map` empty). -/
def update_df_column (le : V → V → Bool) (mode : Mode) (palette : List G)
    (col : List V) : Except PyErr (UpdateResult V G) := do
  let factors := fmapFactors le col
  let maps ← fmapAssignment le mode palette col
  let glyphColumn ← col.mapM (fun v =>
    match maps.1.lookup v with
    | some g => Except.ok g
    | none => Except.error PyErr.keyError)
  let idColumn ← col.mapM (fun v =>
    match maps.2.lookup v with
    | some i => Except.ok i
    | none => Except.error PyErr.keyError)
  return { factors := factors, glyphMap := maps.1, idMap := maps.2,
           glyphColumn := glyphColumn, idColumn := idColumn }

/-- Result record of `FactorMap.update_df` in the column-absent branch,
whose single factor is the string `"None"`. -/
structure NoColumnResult (G : Type) where
  factors : List String
  glyphMap : List (String × G)
  idMap : List (String × ℕ)
  glyphColumn : List G
  idColumn : List ℕ
  deriving DecidableEq

/-- `FactorMap.update_df`, column-absent branch of `coda/utils.py`:
`factors = ["None"]`, `glyph = self.palette[0]` (an `IndexError` on an
empty palette), id column all zeros, glyph column filled with `glyph`. -/
def update_df_nocolumn (palette : List G) (nrows : ℕ) :
    Except PyErr (NoColumnResult G) :=
  match palette with
  | [] => .error .indexError
  | g :: _ =>
    .ok { factors := ["None"], glyphMap := [("None", g)],
          idMap := [("None", 0)],
          glyphColumn := List.replicate nrows g,
          idColumn := List.replicate nrows 0 }

/-- The constructed `FactorMap` object: the fields assigned by
`FactorMap.__init__` in `coda/utils.py` (and, without `mode`, in
`cora/utils.py`). -/
structure Obj (G : Type) where
  name : String
  column_name : Option String
  palette : List G
  mode : Mode
  factors : List String
  deriving DecidableEq

/-- `FactorMap.__init__` of `coda/utils.py`: stores the inputs and
initializes the derived fields to empty values.  The constructor body
performs no validation and raises nothing, hence it always returns `ok`;
the `Except` wrapper only records that a Python constructor could raise. -/
def init (name : String) (column_name : Option String) (palette : List G)
    (mode : Mode) : Except PyErr (Obj G) :=
  .ok { name := name, column_name := column_name, palette := palette,
        mode := mode, factors := [] }

/-- Restarting the exhausted palette: once the remaining palette is empty,
`zipCycle` continues exactly as if the full (nonempty) palette were the
remainder. -/
theorem zipCycle_restart (fs : List V) (g : G) (gs : List G) :
    zipCycle fs [] (g :: gs) = zipCycle fs (g :: gs) (g :: gs) := by
  cases fs <;> rfl

/-- Element formula for `zipCycle`: starting from the palette suffix
`orig.drop j`, the `i`-th zipped pair combines the `i`-th factor with the
palette entry at index `(j + i) mod |orig|`. -/
theorem zipCycle_getElem (orig : List G) (factors : List V) :
    ∀ (j i : ℕ), j < orig.length →
      (zipCycle factors (orig.drop j) orig)[i]?
        = (factors[i]?).bind (fun f =>
            (orig[(j + i) % orig.length]?).map (fun g => (f, g))) := by
  induction factors with
  | nil => intro j i hj; simp [zipCycle]
  | cons f fs ih =>
    intro j i hj
    rw [List.drop_eq_getElem_cons hj]
    show ((f, orig[j]) :: zipCycle fs (orig.drop (j + 1)) orig)[i]? = _
    cases i with
    | zero =>
      simp [Nat.mod_eq_of_lt hj, List.getElem?_eq_getElem hj]
    | succ i =>
      simp only [List.getElem?_cons_succ, List.getElem?_cons_succ]
      rcases Nat.lt_or_ge (j + 1) orig.length with hj1 | hj1
      · rw [ih (j + 1) i hj1]
        have : j + 1 + i = j + (i + 1) := by omega
        rw [this]
      · have hj1e : j + 1 = orig.length := by omega
        have hnil : orig.drop (j + 1) = [] := by
          rw [List.drop_eq_nil_iff]; omega
        rw [hnil]
        obtain ⟨g, gs, rfl⟩ : ∃ g gs, orig = g :: gs := by
          cases orig with
          | nil => simp at hj
          | cons g gs => exact ⟨g, gs, rfl⟩
        rw [zipCycle_restart]
        have h0 : (0 : ℕ) < (g :: gs).length := by simp
        have := ih 0 i h0
        rw [List.drop_zero] at this
        rw [this]
        have : (j + (i + 1)) % (g :: gs).length = (0 + i) % (g :: gs).length := by
          rw [Nat.zero_add]
          conv_lhs => rw [show j + (i + 1) = (g :: gs).length + i by omega]
          exact Nat.add_mod_left _ _
        rw [this]

/-- Element formula for `zipRepeatLast`: the `i`-th zipped pair combines
the `i`-th factor with the palette entry at index `j + i` when in range
and with `last` otherwise. -/
theorem zipRepeatLast_getElem (orig : List G) (last : G) (factors : List V) :
    ∀ (j i : ℕ),
      (zipRepeatLast factors (orig.drop j) last)[i]?
        = (factors[i]?).map (fun f => (f, (orig[j + i]?).getD last)) := by
  induction factors with
  | nil => intro j i; simp [zipRepeatLast]
  | cons f fs ih =>
    intro j i
    cases hdrop : orig.drop j with
    | nil =>
      have hj : orig.length ≤ j := List.drop_eq_nil_iff.mp hdrop
      show ((f, last) :: zipRepeatLast fs [] last)[i]? = _
      cases i with
      | zero =>
        have h0 : orig[j]? = none := List.getElem?_eq_none (by omega)
        simp [h0]
      | succ i =>
        simp only [List.getElem?_cons_succ]
        have hnil : orig.drop (j + 1) = [] := by
          rw [List.drop_eq_nil_iff]; omega
        rw [← hnil, ih (j + 1) i]
        have : j + 1 + i = j + (i + 1) := by omega
        rw [this]
    | cons g rest =>
      have hj : j < orig.length := by
        by_contra hle
        rw [List.drop_eq_nil_iff.mpr (by omega)] at hdrop
        exact List.noConfusion hdrop
      have hcons := (List.drop_eq_getElem_cons hj).symm.trans hdrop
      obtain ⟨hg, hrest⟩ := List.cons_eq_cons.mp hcons
      show ((f, g) :: zipRepeatLast fs rest last)[i]? = _
      cases i with
      | zero =>
        simp [← hg, List.getElem?_eq_getElem hj]
      | succ i =>
        simp only [List.getElem?_cons_succ]
        rw [← hrest, ih (j + 1) i]
        have : j + 1 + i = j + (i + 1) := by omega
        rw [this]

/-- C4: For any two tables whose designated column contains the same set of
distinct values (rows possibly reordered or duplicated differently),
`FactorMap.update_df` produces the same sorted factors list and the
identical factor-to-glyph and factor-to-id assignments. -/
theorem factor_stability (le : V → V → Bool) (mode : Mode) (palette : List G)
    (col₁ col₂ : List V) (h : col₁.toFinset = col₂.toFinset) :
    fmapFactors le col₁ = fmapFactors le col₂
    ∧ fmapAssignment le mode palette col₁ = fmapAssignment le mode palette col₂ := by
  have hu : npUnique col₁ = npUnique col₂ := npUnique_eq_of_toFinset_eq h
  have hf : fmapFactors le col₁ = fmapFactors le col₂ := by
    unfold fmapFactors; rw [hu]
  refine ⟨hf, ?_⟩
  unfold fmapAssignment
  rw [hf]

/-- C4 witness: two concrete columns with the same value set `{1, 2}` but
different row order and duplication yield identical factors and
assignments. -/
theorem factor_stability_witness :
    fmapFactors Nat.ble [2, 1, 2] = fmapFactors Nat.ble [1, 1, 2]
    ∧ fmapAssignment Nat.ble .CYCLE ["r", "g"] [2, 1, 2]
        = fmapAssignment Nat.ble .CYCLE ["r", "g"] [1, 1, 2] :=
  factor_stability Nat.ble .CYCLE ["r", "g"] [2, 1, 2] [1, 1, 2] (by decide)

/-- C5: with palette length `k` and more sorted factors than palette
entries, the `i`-th sorted factor's glyph in `CYCLE` mode is
`palette[i % k]` and in `REPEAT_LAST` mode is `palette[min i (k - 1)]`. -/
theorem palette_wrap (le : V → V → Bool) (palette : List G) (col : List V)
    (i : ℕ) (hk : palette ≠ [])
    (hn : palette.length < (fmapFactors le col).length)
    (hi : i < (fmapFactors le col).length) :
    ((fmapAssignment le .CYCLE palette col).map
        (fun pr => (pr.1[i]?).map Prod.snd))
      = .ok (palette[i % palette.length]?)
    ∧ ((fmapAssignment le .REPEAT_LAST palette col).map
        (fun pr => (pr.1[i]?).map Prod.snd))
      = .ok (palette[min i (palette.length - 1)]?) := by
  have hk0 : 0 < palette.length := List.length_pos.mpr hk
  obtain ⟨last, hlast⟩ : ∃ last, palette.getLast? = some last := by
    cases hp : palette.getLast? with
    | none => exact absurd (List.getLast?_eq_none_iff.mp hp) hk
    | some last => exact ⟨last, rfl⟩
  constructor
  · show Except.map _ (.ok (zipCycle (fmapFactors le col) palette palette, _)) = _
    have hz := zipCycle_getElem palette (fmapFactors le col) 0 i hk0
    rw [List.drop_zero] at hz
    simp only [Except.map, hz]
    rw [List.getElem?_eq_getElem hi]
    have hmod : i % palette.length < palette.length := Nat.mod_lt _ hk0
    rw [Nat.zero_add, List.getElem?_eq_getElem hmod]
    simp
  · show (Except.map _
        (match palette.getLast? with
          | none => .error PyErr.indexError
          | some last => .ok (zipRepeatLast (fmapFactors le col) palette last,
              (fmapFactors le col).enum.map (fun p => (p.2, p.1))))) = _
    rw [hlast]
    have hz := zipRepeatLast_getElem palette last (fmapFactors le col) 0 i
    rw [List.drop_zero, Nat.zero_add] at hz
    simp only [Except.map, hz]
    rw [List.getElem?_eq_getElem hi]
    rcases Nat.lt_or_ge i palette.length with hik | hik
    · have hmin : min i (palette.length - 1) = i := by omega
      rw [hmin, List.getElem?_eq_getElem hik]
      simp [List.getElem?_eq_getElem hik]
    · have hmin : min i (palette.length - 1) = palette.length - 1 := by omega
      have hnone : palette[i]? = none := List.getElem?_eq_none (by omega)
      rw [hmin, hnone]
      rw [List.getLast?_eq_getElem?] at hlast
      rw [hlast]
      simp [hnone]

/-- C5 witness: four sorted factors over a three-entry palette; the glyph
of factor index 3 is `palette[0]` in `CYCLE` mode and `palette[2]` in
`REPEAT_LAST` mode. -/
theorem palette_wrap_witness :
    ((fmapAssignment Nat.ble .CYCLE ["a", "b", "c"] [3, 1, 2, 10]).map
        (fun pr => (pr.1[3]?).map Prod.snd))
      = .ok (["a", "b", "c"][3 % 3]?)
    ∧ ((fmapAssignment Nat.ble .REPEAT_LAST ["a", "b", "c"] [3, 1, 2, 10]).map
        (fun pr => (pr.1[3]?).map Prod.snd))
      = .ok (["a", "b", "c"][min 3 2]?) :=
  palette_wrap Nat.ble ["a", "b", "c"] [3, 1, 2, 10] 3
    (by decide) (by decide) (by decide)

/-- Zipping against an empty cycle yields nothing
(`itertools.cycle([])` is empty). -/
theorem zipCycle_nil (fs : List V) : zipCycle fs [] ([] : List G) = [] := by
  cases fs <;> rfl

/-- C7 counterexample: constructing a `FactorMap` with an empty palette
does NOT fail: `FactorMap.__init__` performs no palette validation and
returns normally, and the failure only surfaces later, when
`update_df` evaluates `self.palette[0]` (`IndexError`). -/
theorem empty_palette_accepted_cex :
    (init (G := String) "coda:color" none [] .CYCLE).isOk = true
    ∧ update_df_nocolumn (G := String) [] 5 = .error .indexError := by
  exact ⟨rfl, rfl⟩

/-- C7 amended: the constructor accepts an empty palette (no validation in
`FactorMap.__init__`), and recomputation fails afterwards:
`update_df` with no column raises `IndexError` at `palette[0]`; with a
column present, `REPEAT_LAST` mode raises `IndexError` at `palette[-1]`, and
`CYCLE` mode builds an empty `glyph_map` whose per-row lookup raises
`KeyError` on any nonempty column. -/
theorem empty_palette_deferred_failure (name : String) (cn : Option String)
    (mode : Mode) (n : ℕ) (le : V → V → Bool) (col : List V)
    (hcol : col ≠ []) :
    (init (G := G) name cn [] mode).isOk = true
    ∧ update_df_nocolumn (G := G) [] n = .error .indexError
    ∧ update_df_column le .REPEAT_LAST ([] : List G) col = .error .indexError
    ∧ update_df_column le .CYCLE ([] : List G) col = .error .keyError := by
  refine ⟨rfl, rfl, rfl, ?_⟩
  obtain ⟨c, cs, rfl⟩ : ∃ c cs, col = c :: cs := by
    cases col with
    | nil => exact absurd rfl hcol
    | cons c cs => exact ⟨c, cs, rfl⟩
  simp only [update_df_column, fmapAssignment, zipCycle_nil]
  rfl

/-- C7 amended witness: concrete empty-palette factor map over a one-row
column. -/
theorem empty_palette_deferred_failure_witness :
    (init (G := String) "m" none [] .CYCLE).isOk = true
    ∧ update_df_nocolumn (G := String) [] 2 = .error .indexError
    ∧ update_df_column Nat.ble .REPEAT_LAST ([] : List String) [7]
        = .error .indexError
    ∧ update_df_column Nat.ble .CYCLE ([] : List String) [7]
        = .error .keyError :=
  empty_palette_deferred_failure "m" none .CYCLE 2 Nat.ble [7] (by decide)

end FactorMap

/-! ## `coda/application.py` — `Application.reload` and the selection writebacks

The reload protocol is embedded as an explicit state-and-trace function.
The state keeps the fields of `Application` that the protocol reads or
writes; the trace records every call made to the `DataProvider`
(`reload`, `write_vertex_selection`, `write_edge_selection`,
`write_vertex_colormap`, `write_edge_colormap`), each tagged with the value
of `is_reloading` at the moment of the call.
-/

namespace Application

/-- An externally visible call to the `DataProvider`.  The `Bool` on the
write events is the value of `Application.is_reloading` when the call was
made. -/
inductive Ev where
  | providerReload
  | writeVertexSel (sel : List ℕ) (during : Bool)
  | writeEdgeSel (sel : List ℕ) (during : Bool)
  | writeVertexCmap (during : Bool)
  | writeEdgeCmap (during : Bool)
  deriving DecidableEq, Repr

/-- The `Application` state touched by the reload protocol: the re-entrancy
flag `is_reloading`, the two dataframe references (identified by an epoch
number), and the current selection indices of the two Bokeh
`ColumnDataSource` sinks (`cds.selected.indices`,
`cds_edges.selected.indices`). -/
structure St where
  is_reloading : Bool
  df : ℕ
  df_edges : ℕ
  vertexSel : List ℕ
  edgeSel : List ℕ
  deriving DecidableEq, Repr

/-- The behaviour of the external `DataProvider` during
`self.data_provider.reload()`: it may raise (`raises`), it may
synchronously call `Application.reload` again before returning
(`reentrant`, e.g. a change notification echoed back into a reload),
and on success it exposes the new vertex/edge tables. -/
structure Provider where
  raises : Bool
  reentrant : Bool
  newDf : ℕ
  newDfEdges : ℕ
  deriving DecidableEq, Repr

/-- `Application.on_cds_selection_change`: Bokeh has already updated
`cds.selected.indices` to `new` when the handler runs; the handler
forwards the selection to `DataProvider.write_vertex_selection` unless a
reload is in progress (`if self.is_reloading: return None`). -/
def on_cds_selection_change (s : St) (new : List ℕ) : St × List Ev :=
  let s := { s with vertexSel := new }
  if s.is_reloading then (s, []) else (s, [.writeVertexSel new false])

/-- `Application.reload` of `coda/application.py`, with the provider calls
as the observable trace.  Step for step:
1. re-entrancy guard: `if self.is_reloading: return None`;
2. `self.is_reloading = True`;
3. `self.data_provider.reload()` — a reentrant provider synchronously
   calls `Application.reload` again here (consuming one unit of `fuel`),
   and a raising provider makes the exception propagate out of `reload`
   (the function returns with the `Bool` component `true` and performs
   none of the remaining steps — there is no `try/finally` in the code);
4. replace `self.df` / `self.df_edges`;
5. menu updates, then `update_colormap` / `update_markermap` /
   `update_edge_colormap`, which call `write_vertex_colormap` and
   `write_edge_colormap` while the flag is still set;
6. view `reload_df` hooks, then `push_df_to_cds(force=True)` — the bulk
   sink replacement may fire selection-change events (`mids`), each run
   through `on_cds_selection_change`;
7. view `reload_cds` hooks and layout updates (no provider calls);
8. `self.is_reloading = False`;
9. echo the current selection and colormap back to the provider. -/
def reload : ℕ → Provider → List (List ℕ) → St → St × List Ev × Bool
  | fuel, p, mids, s =>
    if s.is_reloading then (s, [], false)
    else
      let s1 : St := { s with is_reloading := true }
      let inner : St × List Ev :=
        if p.reentrant then
          match fuel with
          | 0 => (s1, [])
          | fuel' + 1 =>
            let r := reload fuel' p mids s1
            (r.1, r.2.1)
        else (s1, [])
      let s2 := inner.1
      let tr2 := inner.2
      if p.raises then (s2, tr2, true)
      else
        let tr3 := tr2 ++ [Ev.providerReload]
        let s3 : St := { s2 with df := p.newDf, df_edges := p.newDfEdges }
        let tr4 := tr3 ++ [Ev.writeVertexCmap true, Ev.writeEdgeCmap true]
        let push := mids.foldl
          (fun (acc : St × List Ev) new =>
            ((on_cds_selection_change acc.1 new).1,
             acc.2 ++ (on_cds_selection_change acc.1 new).2))
          (s3, tr4)
        let s5 : St := { push.1 with is_reloading := false }
        let tr5 := push.2 ++
          [Ev.writeVertexSel s5.vertexSel false,
           Ev.writeEdgeSel s5.edgeSel false,
           Ev.writeVertexCmap false, Ev.writeEdgeCmap false]
        (s5, tr5, false)

/-- Does an event report a `write_vertex_selection` call? -/
def isVertexWrite : Ev → Bool
  | .writeVertexSel _ _ => true
  | _ => false

/-- While `is_reloading` is set, delivering sink selection-change events
only updates the sink selection: no event reaches the provider. -/
theorem push_events_suppressed (mids : List (List ℕ)) :
    ∀ (s : St) (tr : List Ev), s.is_reloading = true →
      mids.foldl
        (fun (acc : St × List Ev) new =>
          ((on_cds_selection_change acc.1 new).1,
           acc.2 ++ (on_cds_selection_change acc.1 new).2))
        (s, tr)
      = ({ s with vertexSel := mids.getLast?.getD s.vertexSel }, tr) := by
  induction mids with
  | nil =>
    intro s tr _
    show (s, tr) = _
    simp
  | cons m ms ih =>
    intro s tr hs
    have hstep : on_cds_selection_change s m = ({ s with vertexSel := m }, []) := by
      unfold on_cds_selection_change
      simp [hs]
    rw [List.foldl_cons]
    show List.foldl _ ((on_cds_selection_change s m).1,
          tr ++ (on_cds_selection_change s m).2) ms = _
    rw [hstep]
    simp only [List.append_nil]
    rw [ih { s with vertexSel := m } tr hs]
    cases hms : ms.getLast? with
    | none =>
      have : ms = [] := List.getLast?_eq_none_iff.mp hms
      subst this
      simp [List.getLast?]
    | some v =>
      have h1 : (m :: ms).getLast? = some v := by
        cases ms with
        | nil => simp at hms
        | cons a as =>
          rw [List.getLast?_cons_cons]
          exact hms
      simp [hms, h1]

/-- The re-entrancy guard: calling `reload` while `is_reloading` is set
returns immediately, with no state change, no provider call and no
exception. -/
theorem reload_guard (fuel : ℕ) (p : Provider) (mids : List (List ℕ))
    (s : St) (h : s.is_reloading = true) :
    reload fuel p mids s = (s, [], false) := by
  cases fuel <;> (unfold reload; simp [h])

/-- Full evaluation of a successful reload from the idle state: the final
state has the new tables, the last mid-reload sink selection and a cleared
flag, and the trace is the fixed provider-call sequence. -/
theorem reload_run (fuel : ℕ) (p : Provider) (mids : List (List ℕ))
    (s : St) (hidle : s.is_reloading = false) (hok : p.raises = false) :
    reload fuel p mids s =
      ({ is_reloading := false, df := p.newDf, df_edges := p.newDfEdges,
         vertexSel := mids.getLast?.getD s.vertexSel, edgeSel := s.edgeSel },
       [Ev.providerReload, Ev.writeVertexCmap true, Ev.writeEdgeCmap true,
        Ev.writeVertexSel (mids.getLast?.getD s.vertexSel) false,
        Ev.writeEdgeSel s.edgeSel false,
        Ev.writeVertexCmap false, Ev.writeEdgeCmap false],
       false) := by
  cases fuel with
  | zero =>
    unfold reload
    simp [hidle, hok, ite_self, push_events_suppressed]
  | succ fuel' =>
    unfold reload
    simp [hidle, hok, ite_self, reload_guard, push_events_suppressed]

/-- C2: during a reload, sink selection-change events do not reach
`DataProvider.write_vertex_selection`; after the flag clears, the reload
makes exactly one `write_vertex_selection` call, carrying the current
(final) sink selection. -/
theorem selection_writeback_suppressed_during_reload (fuel : ℕ)
    (p : Provider) (mids : List (List ℕ)) (s : St)
    (hidle : s.is_reloading = false) (hok : p.raises = false) :
    ((reload fuel p mids s).2.1.filter isVertexWrite)
        = [Ev.writeVertexSel (reload fuel p mids s).1.vertexSel false]
    ∧ (reload fuel p mids s).1.is_reloading = false := by
  rw [reload_run fuel p mids s hidle hok]
  constructor
  · simp [isVertexWrite, List.filter]
  · rfl

/-- C2 witness: a reload that internally fires a sink selection-change
event (`[2, 3]`).  The provider write list contains exactly one
`write_vertex_selection` call, tagged as made after the flag cleared. -/
theorem selection_writeback_suppressed_during_reload_witness :
    ((reload 1 ⟨false, false, 1, 1⟩ [[2, 3]] ⟨false, 0, 0, [0], []⟩).2.1.filter
        isVertexWrite)
      = [Ev.writeVertexSel
          (reload 1 ⟨false, false, 1, 1⟩ [[2, 3]] ⟨false, 0, 0, [0], []⟩).1.vertexSel
          false]
    ∧ (reload 1 ⟨false, false, 1, 1⟩ [[2, 3]] ⟨false, 0, 0, [0], []⟩).1.is_reloading
        = false :=
  selection_writeback_suppressed_during_reload 1 ⟨false, false, 1, 1⟩
    [[2, 3]] ⟨false, 0, 0, [0], []⟩ rfl rfl

/-- C6: a `reload` arriving while a reload is in flight is a complete
no-op (the guard), so a provider that synchronously re-enters `reload`
produces exactly the same state and trace as a non-reentrant one; the
provider's `reload` runs exactly once, and the flag ends cleared
(`Idle → Reloading → Idle` only). -/
theorem reload_reentrancy_guard (fuel : ℕ) (p : Provider)
    (mids : List (List ℕ)) (s sBusy : St)
    (hidle : s.is_reloading = false) (hok : p.raises = false)
    (hbusy : sBusy.is_reloading = true) :
    reload fuel { p with reentrant := true } mids s
        = reload fuel { p with reentrant := false } mids s
    ∧ ((reload fuel { p with reentrant := true } mids s).2.1.count
        Ev.providerReload) = 1
    ∧ (reload fuel { p with reentrant := true } mids s).1.is_reloading = false
    ∧ reload fuel p mids sBusy = (sBusy, [], false) := by
  have h1 := reload_run fuel { p with reentrant := true } mids s hidle hok
  have h2 := reload_run fuel { p with reentrant := false } mids s hidle hok
  refine ⟨h1.trans h2.symm, ?_, ?_, reload_guard fuel p mids sBusy hbusy⟩
  · rw [h1]
    simp [List.count_cons]
  · rw [h1]

/-- C6 witness: a concrete reentrant reload from idle. -/
theorem reload_reentrancy_guard_witness :
    reload 2 { raises := false, reentrant := true, newDf := 1, newDfEdges := 1 }
        [] ⟨false, 0, 0, [4], [5]⟩
      = reload 2 { raises := false, reentrant := false, newDf := 1, newDfEdges := 1 }
          [] ⟨false, 0, 0, [4], [5]⟩
    ∧ ((reload 2 { raises := false, reentrant := true, newDf := 1, newDfEdges := 1 }
        [] ⟨false, 0, 0, [4], [5]⟩).2.1.count Ev.providerReload) = 1
    ∧ (reload 2 { raises := false, reentrant := true, newDf := 1, newDfEdges := 1 }
        [] ⟨false, 0, 0, [4], [5]⟩).1.is_reloading = false
    ∧ reload 2 { raises := false, reentrant := false, newDf := 1, newDfEdges := 1 }
        [] ⟨true, 0, 0, [], []⟩
      = (⟨true, 0, 0, [], []⟩, [], false) :=
  reload_reentrancy_guard 2
    { raises := false, reentrant := false, newDf := 1, newDfEdges := 1 }
    [] ⟨false, 0, 0, [4], [5]⟩ ⟨true, 0, 0, [], []⟩ rfl rfl rfl

/-- C1 (code bug): `Application.reload` has no `try/finally` around its
body, so when `self.data_provider.reload()` raises, the exception
propagates (third component `true`) and `is_reloading` is left set —
contradicting the spec's guaranteed release (and unlike
`ViewBase.begin_reload`, which does use `try/finally`).  Every later
`reload()` then hits the guard and returns immediately, and all selection
writebacks stay suppressed. -/
theorem reload_exception_leaves_flag_set :
    reload 1 { raises := true, reentrant := false, newDf := 1, newDfEdges := 1 }
        [] { is_reloading := false, df := 0, df_edges := 0,
             vertexSel := [0], edgeSel := [] }
      = ({ is_reloading := true, df := 0, df_edges := 0,
           vertexSel := [0], edgeSel := [] }, [], true)
    ∧ reload 1 { raises := true, reentrant := false, newDf := 1, newDfEdges := 1 }
        [] { is_reloading := true, df := 0, df_edges := 0,
             vertexSel := [0], edgeSel := [] }
      = ({ is_reloading := true, df := 0, df_edges := 0,
           vertexSel := [0], edgeSel := [] }, [], false) := by
  exact ⟨rfl, rfl⟩

end Application

/-! ## `cora/view/histogram.py` — `HistogramPlot.compute_histogram`

The stacked histogram aggregation: a 2D histogram over (value, factor id)
for the selected and the unselected subset, then three renderable series
(`all`, `selected`, `unselected`).  Values are embedded as exact rationals;
the numpy float operations involved (`linspace`, `histogram2d`, sums,
elementwise division) are all rational-valued on rational inputs. -/

namespace HistogramPlot

/-- `np.min` (raises on an empty array). -/
def npMin (xs : List ℚ) : Except PyErr ℚ :=
  match xs with
  | [] => .error .valueError
  | x :: rest => .ok (rest.foldl min x)

/-- `np.max` (raises on an empty array). -/
def npMax (xs : List ℚ) : Except PyErr ℚ :=
  match xs with
  | [] => .error .valueError
  | x :: rest => .ok (rest.foldl max x)

/-- `np.linspace(lo, hi, num, endpoint=True)`. -/
def linspace (lo hi : ℚ) (num : ℕ) : List ℚ :=
  (List.range num).map (fun i => lo + (hi - lo) * i / ((num : ℚ) - 1))

/-- The bin index of value `v` for the monotone edge list `edges`
(`np.histogram` semantics: half-open bins, last bin right-closed;
out-of-range values are dropped). -/
def binIndex (edges : List ℚ) (v : ℚ) : Option ℕ :=
  let nb := edges.length - 1
  (List.range nb).find? (fun i =>
    match edges[i]?, edges[i + 1]? with
    | some lo, some hi =>
      decide (lo ≤ v) &&
        (decide (v < hi) || ((i == nb - 1) && decide (v ≤ hi)))
    | _, _ => false)

/-- `np.histogram2d(x, y, bins=(xedges, yedges))`: per (x-bin, y-bin) pair,
the number of samples falling into both bins (as a float count matrix). -/
def hist2d (pts : List (ℚ × ℚ)) (xedges yedges : List ℚ) : List (List ℚ) :=
  (List.range (xedges.length - 1)).map (fun ix =>
    (List.range (yedges.length - 1)).map (fun iy =>
      ((pts.countP (fun pt =>
        binIndex xedges pt.1 == some ix && binIndex yedges pt.2 == some iy)) : ℚ)))

/-- `np.zeros_like` for a 2D count matrix of the given shape. -/
def zeros2d (nx ny : ℕ) : List (List ℚ) :=
  (List.range nx).map (fun _ => (List.range ny).map (fun _ => (0 : ℚ)))

/-- The rows kept by the boolean selection mask
(`selection_mask[selection] = True; xvalues[selection_mask]`): row `i` is
kept iff `i` is among the selection indices, in row order. -/
def selectRows (pts : List (ℚ × ℚ)) (sel : List ℕ) : List (ℚ × ℚ) :=
  (pts.enum.filter (fun p => decide (p.1 ∈ sel))).map Prod.snd

/-- The rows kept by the inverted mask (`xvalues[~selection_mask]`). -/
def unselectRows (pts : List (ℚ × ℚ)) (sel : List ℕ) : List (ℚ × ℚ) :=
  (pts.enum.filter (fun p => !decide (p.1 ∈ sel))).map Prod.snd

/-- `np.sum(m, axis=1)`: row sums of the count matrix. -/
def rowSums (m : List (List ℚ)) : List ℚ :=
  m.map List.sum

/-- Elementwise sum of two equally shaped arrays. -/
def addLists (a b : List ℚ) : List ℚ :=
  a.zipWith (· + ·) b

/-- `np.divide(hist, hist_all, out=np.zeros_like(hist), where=hist_all != 0)`:
elementwise ratio with 0 substituted where the denominator is 0. -/
def ratioDiv (hist histAll : List ℚ) : List ℚ :=
  hist.zipWith (fun h t => if t = 0 then 0 else h / t) histAll

/-- The data dict built by `update_cds_all`. -/
structure AllSeries where
  left : List ℚ
  right : List ℚ
  top : List ℚ
  bottom : List ℚ
  count : List ℚ
  label : List String
  deriving DecidableEq

/-- The data dict built by `update_cds_selected` / `update_cds_unselected`.
A `color` entry of `none` is a `glyph_map` lookup miss (a Python
`KeyError`; impossible for a factor map produced by `update_df`). -/
structure StackSeries where
  left : List ℚ
  right : List ℚ
  top : List ℚ
  bottom : List ℚ
  color : List (Option String)
  count : List ℚ
  label : List String
  ratios : List ℚ
  deriving DecidableEq

/-- `update_cds_all(hist, xedges)`. -/
def update_cds_all (hist : List ℚ) (xedges : List ℚ) (nbins : ℕ) : AllSeries :=
  { left := xedges.dropLast, right := xedges.drop 1,
    top := hist, bottom := (List.range nbins).map (fun _ => (0 : ℚ)),
    count := hist, label := (List.range nbins).map (fun _ => "all") }

/-- `hist2d[:, ifactor]`: a column of the count matrix. -/
def histColumn (m : List (List ℚ)) (j : ℕ) : List ℚ :=
  m.map (fun row => (row[j]?).getD 0)

/-- One `(ifactor, factor)` step of the `update_cds_selected` loop: extend
every field and return the new running `top`. -/
def stackStepSel (gm : List (String × String)) (m : List (List ℚ))
    (histAll leftE rightE : List ℚ) (nbins : ℕ)
    (acc : StackSeries × List ℚ) (p : ℕ × String) : StackSeries × List ℚ :=
  let bottom := acc.2
  let hist := histColumn m p.1
  let top := addLists bottom hist
  let color := gm.lookup p.2
  let ratios := ratioDiv hist histAll
  ({ left := acc.1.left ++ leftE, right := acc.1.right ++ rightE,
     bottom := acc.1.bottom ++ bottom, top := acc.1.top ++ top,
     color := acc.1.color ++ (List.range nbins).map (fun _ => color),
     count := acc.1.count ++ hist,
     label := acc.1.label ++ (List.range nbins).map (fun _ => p.2),
     ratios := acc.1.ratios ++ ratios }, top)

/-- `update_cds_selected(hist2d, hist_all, xedges)`: stacked quads,
ascending from 0. -/
def update_cds_selected (factors : List String) (gm : List (String × String))
    (m : List (List ℚ)) (histAll leftE rightE : List ℚ) (nbins : ℕ) :
    StackSeries :=
  (factors.enum.foldl (stackStepSel gm m histAll leftE rightE nbins)
    ({ left := [], right := [], top := [], bottom := [], color := [],
       count := [], label := [], ratios := [] },
     leftE.map (fun _ => (0 : ℚ)))).1

/-- One `(ifactor, factor)` step of the `update_cds_unselected` loop
(mirrored: descending from 0); the running value is `bottom`. -/
def stackStepUnsel (gm : List (String × String)) (m : List (List ℚ))
    (histAll leftE rightE : List ℚ) (nbins : ℕ)
    (acc : StackSeries × List ℚ) (p : ℕ × String) : StackSeries × List ℚ :=
  let hist := histColumn m p.1
  let top := acc.2
  let bottom := top.zipWith (· - ·) hist
  let color := gm.lookup p.2
  let ratios := ratioDiv hist histAll
  ({ left := acc.1.left ++ leftE, right := acc.1.right ++ rightE,
     bottom := acc.1.bottom ++ bottom, top := acc.1.top ++ top,
     color := acc.1.color ++ (List.range nbins).map (fun _ => color),
     count := acc.1.count ++ hist,
     label := acc.1.label ++ (List.range nbins).map (fun _ => p.2),
     ratios := acc.1.ratios ++ ratios }, bottom)

/-- `update_cds_unselected(hist2d, hist_all, xedges)`. -/
def update_cds_unselected (factors : List String) (gm : List (String × String))
    (m : List (List ℚ)) (histAll leftE rightE : List ℚ) (nbins : ℕ) :
    StackSeries :=
  (factors.enum.foldl (stackStepUnsel gm m histAll leftE rightE nbins)
    ({ left := [], right := [], top := [], bottom := [], color := [],
       count := [], label := [], ratios := [] },
     leftE.map (fun _ => (0 : ℚ)))).1

/-- The inputs of `HistogramPlot.compute_histogram`: the binned column
(`cds.data[self.field]`), the factor id column and factors/glyph map of
the attached `FactorMap`, the bin count and the optional explicit range. -/
structure Input where
  xvalues : List ℚ
  yvalues : List ℚ
  nbins : ℕ
  binRange : Option ℚ × Option ℚ
  factors : List String
  glyphMap : List (String × String)

/-- The three series computed by one `compute_histogram` call, plus
`self.hist_max`. -/
structure Result where
  all : AllSeries
  sel : StackSeries
  unsel : StackSeries
  histMax : ℚ
  deriving DecidableEq

/-- `HistogramPlot.compute_histogram` of `cora/view/histogram.py`.
`xmin`/`xmax` come from the configured `bin_range` entry when that entry is
Python-truthy (`None` and `0.0` are falsy, falling back to the data
min/max); the 2D histogram is computed for the masked selection and its
complement when `self.cds.selected.indices` is nonempty, and for all rows
(with an all-zero unselected matrix) when it is empty. -/
def compute_histogram (inp : Input) (selection : List ℕ) :
    Except PyErr Result := do
  let nbins := inp.nbins
  let xmin ← match inp.binRange.1 with
    | some v => if v = 0 then npMin inp.xvalues else pure v
    | none => npMin inp.xvalues
  let xmax ← match inp.binRange.2 with
    | some v => if v = 0 then npMax inp.xvalues else pure v
    | none => npMax inp.xvalues
  let xedges := linspace xmin xmax (nbins + 1)
  let nfactors := inp.factors.length
  let yedges := linspace (-(1 : ℚ)/2) ((nfactors : ℚ) - 1/2) (nfactors + 1)
  let pts := inp.xvalues.zip inp.yvalues
  let hists :=
    if selection.isEmpty then
      (hist2d pts xedges yedges,
       zeros2d (xedges.length - 1) (yedges.length - 1))
    else
      (hist2d (selectRows pts selection) xedges yedges,
       hist2d (unselectRows pts selection) xedges yedges)
  let histAll := addLists (rowSums hists.1) (rowSums hists.2)
  let histMax ← npMax histAll
  let leftE := xedges.dropLast
  let rightE := xedges.drop 1
  return { all := update_cds_all histAll xedges nbins,
           sel := update_cds_selected inp.factors inp.glyphMap hists.1
                    histAll leftE rightE nbins,
           unsel := update_cds_unselected inp.factors inp.glyphMap hists.2
                    histAll leftE rightE nbins,
           histMax := histMax }

/-- With a selection containing every row index, the mask keeps all rows
and the inverted mask keeps none. -/
theorem rows_of_range (pts : List (ℚ × ℚ)) :
    ∀ (k n : ℕ), k + pts.length ≤ n →
      ((List.enumFrom k pts).filter
          (fun p => decide (p.1 ∈ List.range n))).map Prod.snd = pts
      ∧ (List.enumFrom k pts).filter
          (fun p => !decide (p.1 ∈ List.range n)) = [] := by
  induction pts with
  | nil => intro k n _; constructor <;> rfl
  | cons x xs ih =>
    intro k n hle
    have hkn : k < n := by
      simp only [List.length_cons] at hle; omega
    have ihs := ih (k + 1) n (by simp only [List.length_cons] at hle ⊢; omega)
    rw [List.enumFrom_cons]
    constructor
    · rw [List.filter_cons_of_pos (by simp [List.mem_range, hkn]),
        List.map_cons, ihs.1]
    · rw [List.filter_cons_of_neg (by simp [List.mem_range, hkn]), ihs.2]

/-- `selection = range n` (all row indices) keeps every row. -/
theorem selectRows_range (pts : List (ℚ × ℚ)) (n : ℕ)
    (h : pts.length ≤ n) : selectRows pts (List.range n) = pts := by
  have hr := rows_of_range pts 0 n (by omega)
  unfold selectRows
  exact hr.1

/-- `selection = range n` (all row indices) leaves no unselected row. -/
theorem unselectRows_range (pts : List (ℚ × ℚ)) (n : ℕ)
    (h : pts.length ≤ n) : unselectRows pts (List.range n) = [] := by
  have hr := rows_of_range pts 0 n (by omega)
  unfold unselectRows
  rw [show pts.enum = List.enumFrom 0 pts from rfl, hr.2]
  rfl

/-- A histogram of no samples is the all-zero matrix of the bin shape. -/
theorem hist2d_nil (xe ye : List ℚ) :
    hist2d [] xe ye = zeros2d (xe.length - 1) (ye.length - 1) := by
  simp [hist2d, zeros2d]

/-- C3: computing the histogram aggregation with the empty selection
yields exactly the same `selected`/`unselected`/`all` series (and
`hist_max`) as computing it with the selection equal to the list of all
row indices: the empty selection means "all rows selected" and the
unselected histogram is all-zero. -/
theorem empty_selection_equiv (inp : Input) :
    compute_histogram inp (List.range inp.xvalues.length)
      = compute_histogram inp [] := by
  cases hn : inp.xvalues.length with
  | zero => rfl
  | succ m =>
    have hlen : (inp.xvalues.zip inp.yvalues).length ≤ m + 1 := by
      rw [List.length_zip]
      exact le_trans (min_le_left _ _) (le_of_eq hn)
    have hsel := selectRows_range (inp.xvalues.zip inp.yvalues) (m + 1) hlen
    have hunsel := unselectRows_range (inp.xvalues.zip inp.yvalues) (m + 1) hlen
    unfold compute_histogram
    simp [hsel, hunsel, hist2d_nil, List.isEmpty_iff, List.range_eq_nil]

end HistogramPlot

/-! ## `cora/view/graph.py` — position normalization in `update_graph_layout`

After the layout algorithm returns per-vertex positions (with the
`[-1.0, 0.0]` placeholder for vertices absent from the layout output), the
code runs
`positions -= np.mean(positions, axis=0); positions /= np.std(positions, axis=0)`
with no guard on the standard deviation.  Numpy float division is embedded
with an explicit value type carrying `nan`/`inf`, and the (generally
irrational) standard deviation is represented exactly: the embedding is
defined on the inputs whose per-axis standard deviation is rational
(`ratSqrt?` succeeds), which includes every zero-variance axis. -/

namespace GraphView

/-- A numpy float64 value: a finite (rational) number, or one of the
non-finite values produced by division by zero (`0/0 → nan`,
`±x/0 → ±inf`). -/
inductive NpF where
  | fin (q : ℚ)
  | nan
  | inf
  | ninf
  deriving DecidableEq, Repr

/-- Numpy division on scalars: finite division when the divisor is
nonzero; `nan`/`inf`/`-inf` when dividing by zero (numpy emits a warning
and continues). Non-finite operands propagate `nan` (the only cases the
embedded code reaches are finite operands). -/
def npDiv : NpF → NpF → NpF
  | .fin a, .fin b =>
    if b = 0 then (if a = 0 then .nan else if 0 < a then .inf else .ninf)
    else .fin (a / b)
  | _, _ => .nan

/-- Exact rational square root: `some r` when `q` is the square of a
rational `r ≥ 0`, else `none`. -/
def ratSqrt? (q : ℚ) : Option ℚ :=
  if q < 0 then none
  else
    let sn := Nat.sqrt q.num.toNat
    let sd := Nat.sqrt q.den
    if (sn * sn : ℤ) = q.num ∧ sd * sd = q.den then some ((sn : ℚ) / (sd : ℚ))
    else none

/-- `np.mean(xs)`. -/
def npMean (xs : List ℚ) : ℚ :=
  xs.sum / xs.length

/-- `np.var(xs)`: the mean of the squared deviations. -/
def npVar (xs : List ℚ) : ℚ :=
  ((xs.map (fun x => (x - npMean xs) ^ 2)).sum) / xs.length

/-- One axis of the normalization
`positions -= np.mean(...); positions /= np.std(...)`: center the
coordinates, then divide each by the standard deviation of the centered
coordinates (`np.std = sqrt(var)`), with no zero-variance guard.
`none` means the standard deviation is irrational and outside this exact
embedding (never the case on a zero-variance axis, where the deviation is
exactly 0). -/
def normalizeAxis (xs : List ℚ) : Option (List NpF) :=
  let m := npMean xs
  let centered := xs.map (fun x => x - m)
  match ratSqrt? (npVar centered) with
  | none => none
  | some s => some (centered.map (fun c => npDiv (.fin c) (.fin s)))

/-- Modelled from the spec: the same normalization but dividing by the
substitute value 1.0 on a zero-variance axis ("zero-variance axis must
not divide by zero — substitute 1.0").  This definition follows the
spec's words; the code (`normalizeAxis`) has no such substitution. -/
def normalizeAxisSpec (xs : List ℚ) : Option (List NpF) :=
  let m := npMean xs
  let centered := xs.map (fun x => x - m)
  match ratSqrt? (npVar centered) with
  | none => none
  | some s =>
    let s := if s = 0 then 1 else s
    some (centered.map (fun c => npDiv (.fin c) (.fin s)))

/-- The position array built before normalization: the layout's position
for each vertex row, with the `[-1.0, 0.0]` placeholder for rows the
layout did not cover. -/
def buildPositions (layout : List (ℕ × ℚ × ℚ)) (nrows : ℕ) :
    List (ℚ × ℚ) :=
  (List.range nrows).map (fun i => (layout.lookup i).getD (-1, 0))

/-- The two normalized coordinate columns of the vertex positions
(`positions[:, 0]`, `positions[:, 1]` after the in-place normalization). -/
def normalizePositions (ps : List (ℚ × ℚ)) :
    Option (List NpF × List NpF) :=
  match normalizeAxis (ps.map Prod.fst), normalizeAxis (ps.map Prod.snd) with
  | some xs, some ys => some (xs, ys)
  | _, _ => none

/-- `sqrt 0 = 0` exactly (also in float arithmetic). -/
theorem ratSqrt?_zero : ratSqrt? 0 = some 0 := by
  unfold ratSqrt?
  norm_num

/-- The mean of a constant nonempty list is the constant. -/
theorem npMean_replicate (n : ℕ) (c : ℚ) (hn : 0 < n) :
    npMean (List.replicate n c) = c := by
  have hnq : ((n : ℚ)) ≠ 0 := Nat.cast_ne_zero.mpr (by omega)
  unfold npMean
  rw [List.sum_replicate, List.length_replicate, nsmul_eq_mul]
  field_simp

/-- Centering a constant list yields the all-zero list. -/
theorem centered_replicate (n : ℕ) (c : ℚ) (hn : 0 < n) :
    (List.replicate n c).map
      (fun x => x - npMean (List.replicate n c)) = List.replicate n 0 := by
  rw [npMean_replicate n c hn, List.map_replicate]
  simp

/-- The variance of the all-zero list is 0. -/
theorem npVar_replicate_zero (n : ℕ) :
    npVar (List.replicate n (0 : ℚ)) = 0 := by
  unfold npVar npMean
  simp [List.sum_replicate, List.map_replicate]

/-- On a constant (zero-variance) axis the code's normalization computes
`0/0` per coordinate: every coordinate becomes `nan`. -/
theorem normalizeAxis_replicate (n : ℕ) (c : ℚ) (hn : 0 < n) :
    normalizeAxis (List.replicate n c) = some (List.replicate n NpF.nan) := by
  simp only [normalizeAxis]
  rw [centered_replicate n c hn, npVar_replicate_zero, ratSqrt?_zero]
  simp [npDiv, List.map_replicate]

/-- On a constant axis the spec's substitute-1.0 normalization yields
finite zeros instead. -/
theorem normalizeAxisSpec_replicate (n : ℕ) (c : ℚ) (hn : 0 < n) :
    normalizeAxisSpec (List.replicate n c)
      = some (List.replicate n (NpF.fin 0)) := by
  simp only [normalizeAxisSpec]
  rw [centered_replicate n c hn, npVar_replicate_zero, ratSqrt?_zero]
  simp [npDiv, List.map_replicate]

/-- C8 amended: on an axis whose coordinates are all equal (zero
variance), the code's normalization divides the all-zero centered
coordinates by a standard deviation of exactly 0, producing `nan`
(`0/0`) for every vertex on that axis — there is no 1.0 substitute. -/
theorem zero_variance_axis_nan (n : ℕ) (c : ℚ) (hn : 0 < n) :
    normalizeAxis (List.replicate n c) = some (List.replicate n NpF.nan) :=
  normalizeAxis_replicate n c hn

/-- C8 amended witness: two coincident coordinates on an axis. -/
theorem zero_variance_axis_nan_witness :
    normalizeAxis (List.replicate 2 (5 : ℚ)) = some (List.replicate 2 NpF.nan) :=
  zero_variance_axis_nan 2 5 (by decide)

/-- C8 counterexample: a two-vertex graph whose vertices both receive the
`[-1.0, 0.0]` placeholder position.  Both axes have zero variance; the
code divides by 0 and produces `nan` coordinates for every vertex, while
the claimed substitute-1.0 normalization (`normalizeAxisSpec`) would
produce finite zeros — the claim's "never performs a division by zero" is
false on the code. -/
theorem zero_variance_divide_by_zero_cex :
    buildPositions [] 2 = [(-1, 0), (-1, 0)]
    ∧ normalizePositions [(-1, 0), (-1, 0)]
        = some ([NpF.nan, NpF.nan], [NpF.nan, NpF.nan])
    ∧ normalizeAxisSpec [(-1 : ℚ), -1] = some [NpF.fin 0, NpF.fin 0]
    ∧ normalizeAxis [(-1 : ℚ), -1] ≠ normalizeAxisSpec [(-1 : ℚ), -1] := by
  have hx : normalizeAxis [(-1 : ℚ), -1] = some [NpF.nan, NpF.nan] :=
    normalizeAxis_replicate 2 (-1) (by omega)
  have hy : normalizeAxis [(0 : ℚ), 0] = some [NpF.nan, NpF.nan] :=
    normalizeAxis_replicate 2 0 (by omega)
  have hspec : normalizeAxisSpec [(-1 : ℚ), -1] = some [NpF.fin 0, NpF.fin 0] :=
    normalizeAxisSpec_replicate 2 (-1) (by omega)
  refine ⟨rfl, ?_, hspec, ?_⟩
  · unfold normalizePositions
    rw [show ([(-1, 0), (-1, 0)] : List (ℚ × ℚ)).map Prod.fst
          = [(-1 : ℚ), -1] from rfl,
        show ([(-1, 0), (-1, 0)] : List (ℚ × ℚ)).map Prod.snd
          = [(0 : ℚ), 0] from rfl,
        hx, hy]
  · rw [hx, hspec]
    simp

end GraphView

/-! ## Dataframe model and the column filters of `coda/utils.py` / `cora/utils.py`

A pandas `DataFrame` is embedded as a list of named columns; a column
carries its dtype class (`isNumeric`, for
`pd.api.types.is_numeric_dtype`) and its cells, where a `none` cell is a
null/NaN (`pd.isnull`).  The `natsort.natsorted` ordering on strings is
embedded as a digit-run-aware comparison (digit runs compare by numeric
value, other characters by code point). -/

/-- A column of the dataframe. -/
structure PdColumn where
  name : String
  isNumeric : Bool
  cells : List (Option ℚ)
  deriving DecidableEq

/-- A dataframe: an ordered list of named columns. -/
structure PdFrame where
  cols : List PdColumn
  deriving DecidableEq

/-- `df.columns`. -/
def PdFrame.colNames (df : PdFrame) : List String :=
  df.cols.map PdColumn.name

/-- `df[name]`: the first column with the given name, if any. -/
def PdFrame.col? (df : PdFrame) (n : String) : Option PdColumn :=
  df.cols.find? (fun c => c.name == n)

/-- `pd.api.types.is_numeric_dtype(df[name].dtype)` (false when the
column does not exist). -/
def colIsNumeric (df : PdFrame) (n : String) : Bool :=
  ((df.col? n).map PdColumn.isNumeric).getD false

/-- `df[name].isnull().any()` (false when the column does not exist). -/
def colHasNull (df : PdFrame) (n : String) : Bool :=
  ((df.col? n).map (fun c => c.cells.any (fun v => v.isNone))).getD false

/-- `pre` is a leading run of `s` (model of `str.startswith`). -/
def charsStartWith : List Char → List Char → Bool
  | [], _ => true
  | _ :: _, [] => false
  | a :: as, b :: bs => a == b && charsStartWith as bs

/-- `name.startswith(pre)`. -/
def strStartsWith (s pre : String) : Bool :=
  charsStartWith pre.data s.data

/-- The numeric value of a digit run. -/
def digitsToNat (ds : List Char) : ℕ :=
  ds.foldl (fun acc c => 10 * acc + (c.toNat - 48)) 0

/-- Tokenize a string into maximal digit runs (`Sum.inl`) and single
non-digit characters (`Sum.inr`), for natural-order comparison. -/
def natTokens : List Char → List (Sum (List Char) Char)
  | [] => []
  | c :: cs =>
    let toks := natTokens cs
    if c.isDigit then
      match toks with
      | Sum.inl ds :: rest => Sum.inl (c :: ds) :: rest
      | _ => Sum.inl [c] :: toks
    else Sum.inr c :: toks

/-- Compare token lists: digit runs numerically, other characters by code
point, digit runs before non-digits, shorter prefixes first. -/
def natTokCmp : List (Sum (List Char) Char) → List (Sum (List Char) Char) → Ordering
  | [], [] => .eq
  | [], _ :: _ => .lt
  | _ :: _, [] => .gt
  | t :: ts, u :: us =>
    match t, u with
    | Sum.inl da, Sum.inl db =>
      match compare (digitsToNat da) (digitsToNat db) with
      | .eq => natTokCmp ts us
      | o => o
    | Sum.inr ca, Sum.inr cb =>
      match compare ca cb with
      | .eq => natTokCmp ts us
      | o => o
    | Sum.inl _, Sum.inr _ => .lt
    | Sum.inr _, Sum.inl _ => .gt

/-- The boolean `natsort` comparison on strings. -/
def natLeStr (a b : String) : Bool :=
  match natTokCmp (natTokens a.data) (natTokens b.data) with
  | .gt => false
  | _ => true

namespace CodaUtils

/-- `data_columns` of `coda/utils.py`: the non-`coda:` column names in
natural order. -/
def data_columns (df : PdFrame) : List String :=
  FactorMap.natsorted natLeStr
    ((df.colNames).filter (fun n => !strStartsWith n "coda:"))

/-- `scalar_columns` of `coda/utils.py`: first the numeric-dtype data
columns; but when `allow_nan` is false the list is recomputed from ALL
data columns, keeping those without nulls (the numeric filter is
discarded). -/
def scalar_columns (df : PdFrame) (allow_nan : Bool) : List String :=
  let columns := (data_columns df).filter (fun n => colIsNumeric df n)
  if !allow_nan then (data_columns df).filter (fun n => !colHasNull df n)
  else columns

end CodaUtils

namespace CoraUtils

/-- `data_columns` of `cora/utils.py`: the non-`cora:` column names, in
frame order (no sort in this draft). -/
def data_columns (df : PdFrame) : List String :=
  (df.colNames).filter (fun n => !strStartsWith n "cora:")

/-- `scalar_columns` of `cora/utils.py`: same branch structure as the
`coda` version. -/
def scalar_columns (df : PdFrame) (allow_nan : Bool) : List String :=
  let columns := (data_columns df).filter (fun n => colIsNumeric df n)
  if !allow_nan then (data_columns df).filter (fun n => !colHasNull df n)
  else columns

end CoraUtils

/-- C10: `scalar_columns(df, allow_nan=False)` returns exactly the data
columns without nulls, regardless of dtype — the numeric filter of the
`allow_nan=True` branch is discarded, so the result is not a subset of
the numeric columns: a concrete frame with a null-free string column
`"s"` and a numeric-with-null column `"x"` yields `["s"]`, which is
disjoint from the numeric selection `["x"]`. -/
theorem scalar_columns_allow_nan_false :
    (∀ df : PdFrame,
      CodaUtils.scalar_columns df false
        = (CodaUtils.data_columns df).filter (fun n => !colHasNull df n)
      ∧ CoraUtils.scalar_columns df false
        = (CoraUtils.data_columns df).filter (fun n => !colHasNull df n))
    ∧ CodaUtils.scalar_columns ⟨[⟨"s", false, [some 1]⟩, ⟨"x", true, [none]⟩]⟩
        false = ["s"]
    ∧ CodaUtils.scalar_columns ⟨[⟨"s", false, [some 1]⟩, ⟨"x", true, [none]⟩]⟩
        true = ["x"]
    ∧ "s" ∉ CodaUtils.scalar_columns ⟨[⟨"s", false, [some 1]⟩, ⟨"x", true, [none]⟩]⟩
        true := by
  refine ⟨fun df => ⟨rfl, rfl⟩, by decide, by decide, by decide⟩

/-! ## `coda/view/umap.py` — `UMAPView.reload_df` / `compute_umap`

`reload_df` refreshes the column menu and then calls `compute_umap`,
which runs the reducer (`umap.UMAP(...).fit_transform`) unless the column
selection is empty or a selected column has a missing value.  The trace
records the externally visible steps of `compute_umap` (the scaler, the
reducer call, the dataframe feature writes and the sink push). -/

namespace UMAPView

/-- An externally visible step of `compute_umap`. -/
inductive UEv where
  | standardScale
  | fitTransform
  | writeFeature (i : ℕ)
  | pushCds
  deriving DecidableEq, Repr

/-- `UMAPView.compute_umap` of `coda/view/umap.py`: extract the selected
columns (`values = self.app.df[columns]`, a `KeyError` on a missing
name); return without computing when no column is selected or when
`pd.isnull(values).any().any()`; otherwise scale, run
`reducer.fit_transform`, write `umap:feature:<i>` for each output
component and push to the sink. -/
def compute_umap (df : PdFrame) (uiColumnsValue : List String)
    (ncomp : ℕ) : Except PyErr (List UEv) :=
  match uiColumnsValue.mapM (fun n =>
    match df.col? n with
    | some c => Except.ok c.cells
    | none => Except.error PyErr.keyError) with
  | .error e => .error e
  | .ok values =>
    if uiColumnsValue.isEmpty then .ok []
    else if values.any (fun col => col.any (fun v => v.isNone)) then .ok []
    else .ok ([UEv.standardScale, UEv.fitTransform]
      ++ (List.range ncomp).map UEv.writeFeature ++ [UEv.pushCds])

/-- `UMAPView.reload_df` of `coda/view/umap.py`: restrict the previous
column choice to the currently available scalar columns, update the
widget, and call `compute_umap` on the restricted selection. -/
def reload_df (df : PdFrame) (uiValue : List String) (ncomp : ℕ) :
    Except PyErr (List UEv) :=
  let columns := CodaUtils.scalar_columns df true
  let selection := uiValue.filter (fun n => columns.contains n)
  compute_umap df selection ncomp

/-- Did the run reach the reducer's `fit_transform`? -/
def callsFit (r : Except PyErr (List UEv)) : Bool :=
  match r with
  | .ok evs => evs.contains UEv.fitTransform
  | .error _ => false

/-- `any` over a mapped list. -/
theorem any_map_comp {α β : Type} (f : α → β) (p : β → Bool) :
    ∀ l : List α, (l.map f).any p = l.any (fun a => p (f a)) := by
  intro l
  induction l with
  | nil => rfl
  | cons a as ih => simp [List.any_cons, ih]

/-- `any` respects pointwise equality on the list members. -/
theorem any_congr_mem {α : Type} (p q : α → Bool) :
    ∀ l : List α, (∀ a ∈ l, p a = q a) → l.any p = l.any q := by
  intro l
  induction l with
  | nil => intro _; rfl
  | cons a as ih =>
    intro h
    simp only [List.any_cons]
    rw [h a (by simp), ih (fun b hb => h b (by simp [hb]))]

/-- Membership is preserved by `insertLe`. -/
theorem mem_insertLe {V : Type} (le : V → V → Bool) (x a : V) :
    ∀ l : List V, a ∈ FactorMap.insertLe le x l ↔ a = x ∨ a ∈ l := by
  intro l
  induction l with
  | nil => simp [FactorMap.insertLe]
  | cons y ys ih =>
    by_cases hle : le x y
    · simp [FactorMap.insertLe, hle]
    · simp only [FactorMap.insertLe, hle, Bool.false_eq_true, if_false,
        List.mem_cons, ih]
      tauto

/-- Membership is preserved by `natsorted`. -/
theorem mem_natsorted {V : Type} (le : V → V → Bool) (a : V) :
    ∀ l : List V, a ∈ FactorMap.natsorted le l ↔ a ∈ l := by
  intro l
  induction l with
  | nil => simp [FactorMap.natsorted]
  | cons y ys ih =>
    simp [FactorMap.natsorted, mem_insertLe, ih]

/-- A name appearing in `df.columns` resolves to a column. -/
theorem col?_isSome_of_mem_colNames (df : PdFrame) (n : String)
    (h : n ∈ df.colNames) : (df.col? n).isSome := by
  unfold PdFrame.colNames at h
  obtain ⟨c, hc, rfl⟩ := List.mem_map.mp h
  unfold PdFrame.col?
  exact List.find?_isSome.mpr ⟨c, hc, by simp⟩

/-- Extracting the cells of a list of existing columns succeeds. -/
theorem mapM_cells_ok (df : PdFrame) :
    ∀ sel : List String, (∀ n ∈ sel, (df.col? n).isSome) →
      sel.mapM (fun n =>
        match df.col? n with
        | some c => Except.ok c.cells
        | none => Except.error PyErr.keyError)
      = .ok (sel.map (fun n => ((df.col? n).map PdColumn.cells).getD [])) := by
  intro sel
  induction sel with
  | nil => intro _; rfl
  | cons n ns ih =>
    intro h
    cases hc : df.col? n with
    | none => exact absurd (hc ▸ h n (by simp)) (by simp)
    | some c =>
      rw [List.mapM_cons]
      simp only [hc]
      rw [ih (fun m hm => h m (by simp [hm]))]
      show Except.ok (c.cells :: _) = _
      simp [hc]

/-- A selected scalar column exists in the frame. -/
theorem scalar_col_exists (df : PdFrame) (n : String)
    (h : (CodaUtils.scalar_columns df true).contains n = true) :
    (df.col? n).isSome := by
  apply col?_isSome_of_mem_colNames
  have h1 : n ∈ CodaUtils.scalar_columns df true := by
    simpa using h
  have h2 : n ∈ CodaUtils.data_columns df :=
    (List.mem_filter.mp h1).1
  have h3 : n ∈ (df.colNames).filter (fun m => !strStartsWith m "coda:") := by
    unfold CodaUtils.data_columns at h2
    exact (mem_natsorted _ _ _).mp h2
  exact (List.mem_filter.mp h3).1

/-- Evaluating `compute_umap` once the column extraction succeeded. -/
theorem compute_umap_ok (df : PdFrame) (cols : List String) (ncomp : ℕ)
    (values : List (List (Option ℚ)))
    (h : cols.mapM (fun n =>
        match df.col? n with
        | some c => Except.ok c.cells
        | none => Except.error PyErr.keyError) = .ok values) :
    compute_umap df cols ncomp
      = (if cols.isEmpty then .ok []
         else if values.any (fun col => col.any (fun v => v.isNone)) then .ok []
         else .ok ([UEv.standardScale, UEv.fitTransform]
           ++ (List.range ncomp).map UEv.writeFeature ++ [UEv.pushCds])) := by
  unfold compute_umap
  rw [h]

/-- C9 amended: `UMAPView.reload_df` DOES invoke the reducer implicitly:
it calls `compute_umap`, which runs `fit_transform` exactly when the
restricted column selection is nonempty and none of the selected columns
has a missing value (and skips only in those two cases). -/
theorem umap_reload_df_fit_iff (df : PdFrame) (ui : List String)
    (ncomp : ℕ) :
    callsFit (reload_df df ui ncomp)
      = (!(ui.filter (fun n =>
            (CodaUtils.scalar_columns df true).contains n)).isEmpty
         && !((ui.filter (fun n =>
            (CodaUtils.scalar_columns df true).contains n)).any
              (fun n => colHasNull df n))) := by
  have hsome : ∀ n ∈ ui.filter (fun n =>
      (CodaUtils.scalar_columns df true).contains n), (df.col? n).isSome :=
    fun n hn => scalar_col_exists df n (List.mem_filter.mp hn).2
  simp only [reload_df]
  rw [compute_umap_ok df _ ncomp _ (mapM_cells_ok df _ hsome)]
  cases hemp : (ui.filter (fun n =>
      (CodaUtils.scalar_columns df true).contains n)).isEmpty with
  | true => simp [callsFit, hemp]
  | false =>
    have hany : ((ui.filter (fun n =>
          (CodaUtils.scalar_columns df true).contains n)).map
            (fun n => ((df.col? n).map PdColumn.cells).getD [])).any
          (fun col => col.any (fun v => v.isNone))
        = (ui.filter (fun n =>
            (CodaUtils.scalar_columns df true).contains n)).any
            (fun n => colHasNull df n) := by
      rw [any_map_comp]
      apply any_congr_mem
      intro n hn
      have := hsome n hn
      cases hc : df.col? n with
      | none => exact absurd (hc ▸ this) (by simp)
      | some c => simp [hc, colHasNull]
    rw [hany]
    cases hnull : (ui.filter (fun n =>
        (CodaUtils.scalar_columns df true).contains n)).any
          (fun n => colHasNull df n) with
    | true => simp [callsFit, hemp, hnull]
    | false => simp [callsFit, hemp, hnull, List.contains]

/-- C9 counterexample: a frame with one numeric, null-free column `"a"`
selected in the UMAP view.  `reload_df` — the per-reload hook — reaches
`reducer.fit_transform`, so the embedding computation is NOT restricted
to explicit user actions: it runs as part of every reload whenever the
selection is usable. -/
theorem umap_reload_df_calls_fit_cex :
    reload_df ⟨[⟨"a", true, [some 1, some 2]⟩]⟩ ["a"] 2
      = .ok [UEv.standardScale, UEv.fitTransform, UEv.writeFeature 0,
             UEv.writeFeature 1, UEv.pushCds]
    ∧ UEv.fitTransform ∈ [UEv.standardScale, UEv.fitTransform,
        UEv.writeFeature 0, UEv.writeFeature 1, UEv.pushCds] := by
  exact ⟨rfl, by decide⟩

end UMAPView

end CoDA
